import Mathlib

/-!
Verification of the wsconfig core engine (`wsconfig/script.py` and the AST of
`wsconfig/parsing.py`): the tag-expression evaluator `test_match`, the
document traversal `traverse_document`, the discovery pass `firstpass`,
variable scanning (`variable_re`), `validate`, and `apply_document`.
All definitions are shallow embeddings of the Python source; Python sets of
strings are modelled as lists with membership semantics, and the mutable
working tag set of a traversal is modelled by explicit state passing (plus a
reference/store model for the aliasing facts about `tags.copy()`).
-/

namespace Wsconfig

/-- Python `set` of strings, modelled as a list (membership is the semantic
content; insertion keeps the first occurrence only). -/
abbrev Tags := List String

/-- Add one element to a set (no-op when already present). -/
def addTag (tags : Tags) (t : String) : Tags :=
  if tags.contains t then tags else tags ++ [t]

/-- Python `set.update(iterable)`. -/
def updateTags (tags : Tags) (new : List String) : Tags :=
  new.foldl addTag tags

/-- Tag expressions: `parsing.py` builds `Or` / `And` nodes over plain string
atoms, and `test_match` dispatches on these three shapes. -/
inductive TagExpr where
  | atom : String → TagExpr
  | and : List TagExpr → TagExpr
  | or : List TagExpr → TagExpr
deriving Repr

/-- Python `s.startswith(pre)`, computed on the character lists (the built-in
`String.startsWith` does not reduce in the kernel). -/
def strStartsWith (s pre : String) : Bool :=
  pre.data.isPrefixOf s.data

/-- Python `s[n:]`, computed on the character lists. -/
def strDrop (s : String) (n : Nat) : String :=
  String.mk (s.data.drop n)

/-- Function `parse_tag` from `script.py`: strip a leading `!`, returning
`(required, tag)`. -/
def parse_tag (tag : String) : Bool × String :=
  if strStartsWith tag "!" then (false, strDrop tag 1) else (true, tag)

mutual
/-- Function `test_match(expr, tags, sys_only)` from `script.py`. -/
def test_match : TagExpr → Tags → Bool → Bool
  | .and items, tags, sys_only => test_match_all items tags sys_only
  | .or items, tags, sys_only => test_match_any items tags sys_only
  | .atom s, tags, sys_only =>
    if sys_only && !strStartsWith (parse_tag s).2 "sys:" then true
    else if (parse_tag s).1 then tags.contains (parse_tag s).2
    else !(tags.contains (parse_tag s).2)
termination_by structural e => e

/-- The `And` loop of `test_match`: return `False` as soon as one item fails. -/
def test_match_all : List TagExpr → Tags → Bool → Bool
  | [], _, _ => true
  | e :: rest, tags, sys_only => test_match e tags sys_only && test_match_all rest tags sys_only
termination_by structural l => l

/-- The `Or` loop of `test_match`: return `True` as soon as one item holds. -/
def test_match_any : List TagExpr → Tags → Bool → Bool
  | [], _, _ => false
  | e :: rest, tags, sys_only => test_match e tags sys_only || test_match_any rest tags sys_only
termination_by structural l => l
end

/-- AST nodes of a parsed document. The grammar only ever produces a selector
tag expression that is an `Or` of `And`s of atoms, so a selector carries its
list of AND-clauses (each a list of atom strings). -/
inductive Node where
  | command : List String → Node
  | selector : List (List String) → List Node → Node
deriving Repr

/-- The `TagExpr` value `selector.tagexpr.expr` of a selector with the given
AND-clauses, as built by the parser. -/
def dnfExpr (clauses : List (List String)) : TagExpr :=
  .or (clauses.map (fun c => .and (c.map .atom)))

/-- One `(selector, command, tags)` triple yielded by `traverse_document`;
`tags` is the snapshot of the working set at the yield point. -/
structure Yield where
  sel : Option (List (List String))
  cmd : Option (List String)
  tags : Tags
deriving Repr, DecidableEq

mutual
/-- The loop body of the inner `recurse` generator of `traverse_document` for
one item: the yields the item produces (including any descent into a matching
selector) and the working tag set afterwards. -/
def recurse_step : Node → Tags → List Yield × Tags
  | .command argv, tags =>
    if argv.headD "" = "define" then
      ([], updateTags tags argv)
    else
      ([⟨none, some argv, tags⟩], tags)
  | .selector clauses items, tags =>
    if test_match (dnfExpr clauses) tags false then
      (⟨some clauses, none, tags⟩ :: (recurse items tags).1, (recurse items tags).2)
    else
      ([⟨some clauses, none, tags⟩], tags)
termination_by structural n => n

/-- The inner `recurse` generator of `traverse_document`, returning the list
of yields and the final working tag set. -/
def recurse : List Node → Tags → List Yield × Tags
  | [], tags => ([], tags)
  | item :: rest, tags =>
    ((recurse_step item tags).1 ++ (recurse rest (recurse_step item tags).2).1,
      (recurse rest (recurse_step item tags).2).2)
termination_by structural l => l
end

/-- Function `traverse_document(document, tags)`; the `tags.copy()` at its top is the
identity in this pure model (the store model below captures the aliasing). -/
def traverse_document (doc : List Node) (tags : Tags) : List Yield × Tags :=
  recurse doc tags

/-- The per-AND-clause body of the `firstpass` loop: if the clause passes a
`sys_only` check, collect its atoms (with `!` stripped) that are neither
`sys:`-namespaced nor already active. -/
def collectClause (tags : Tags) (acc : Tags) (clause : List String) : Tags :=
  if test_match (.and (clause.map .atom)) tags true then
    updateTags acc ((clause.map (fun t => (parse_tag t).2)).filter
      (fun t => !strStartsWith t "sys:" && !tags.contains t))
  else acc

/-- Function `firstpass(document, init_tags)` from `script.py`: tag discovery. -/
def firstpass (doc : List Node) (init_tags : Tags) : Tags :=
  (traverse_document doc init_tags).1.foldl
    (fun acc y =>
      match y.sel with
      | none => acc
      | some clauses => clauses.foldl (collectClause y.tags) acc)
    []

/-- The action name `item.command` resolved by `validate` (after splitting a
leading `sudo`). -/
def resolved_command (argv : List String) : String :=
  if argv.headD "" = "sudo" then (argv.drop 1).headD "" else argv.headD ""

/-- The argument list `item.args` resolved by `validate`. -/
def resolved_args (argv : List String) : List String :=
  if argv.headD "" = "sudo" then argv.drop 2 else argv.drop 1

/-- A character matched by `\w` in Python 2's `re` on a byte string. -/
def isWordChar (c : Char) : Bool :=
  c.isAlphanum || c == '_'

/-- Match of the regex `(@@[\w]+@@)` (`variable_re`) anchored at the start of
the character list: the matched text and the remaining characters. -/
def matchVarAt : List Char → Option (String × List Char)
  | '@' :: '@' :: rest =>
    match rest.drop (rest.takeWhile isWordChar).length with
    | '@' :: '@' :: rest2 =>
      if (rest.takeWhile isWordChar).isEmpty then none
      else some (String.mk ('@' :: '@' :: (rest.takeWhile isWordChar ++ ['@', '@'])), rest2)
    | _ => none
  | _ => none

/-- Scan of `variable_re.findall`, scanning left to right for non-overlapping matches.
The fuel argument (instantiated with the text length, which bounds the number
of scanning steps) only makes the recursion structural. -/
def findall_aux : Nat → List Char → List String
  | _, [] => []
  | 0, _ :: _ => []
  | fuel + 1, c :: rest =>
    match matchVarAt (c :: rest) with
    | some (m, rest2) => m :: findall_aux fuel rest2
    | none => findall_aux fuel rest

/-- All matches of `variable_re` in a string, in order. -/
def findall_vars (s : String) : List String :=
  findall_aux s.data.length s.data

/-- Substitution `re.sub(variable_re, var_replacer, arg)` where `var_replacer` looks the
matched text up in the variable mapping: `none` models the uncaught `KeyError`
raised on an unmapped placeholder. Fuel as in `findall_aux`. -/
def sub_aux (vars : List (String × String)) : Nat → List Char → Option String
  | _, [] => some ""
  | 0, _ :: _ => none
  | fuel + 1, c :: rest =>
    match matchVarAt (c :: rest) with
    | some (m, rest2) =>
      match vars.lookup m with
      | some v => (sub_aux vars fuel rest2).map (fun t => v ++ t)
      | none => none
    | none => (sub_aux vars fuel rest).map (fun t => String.mk [c] ++ t)

/-- Substitute all placeholders in one argument (`none` = `KeyError`). -/
def sub_vars (vars : List (String × String)) (s : String) : Option String :=
  sub_aux vars s.data.length s.data

/-- The list comprehension substituting variables into `command.args` in
`apply_document`; fails at the first argument whose substitution raises. -/
def substArgs (vars : List (String × String)) : List String → Option (List String)
  | [] => some []
  | a :: rest =>
    match sub_vars vars a with
    | none => none
    | some b => (substArgs vars rest).map (fun bs => b :: bs)

/-- Function `find_variables(document, tags)` from `script.py`. -/
def find_variables (doc : List Node) (tags : Tags) : Tags :=
  (traverse_document doc tags).1.foldl
    (fun acc y =>
      match y.cmd with
      | none => acc
      | some argv =>
        (resolved_args argv).foldl (fun a arg => updateTags a (findall_vars arg)) acc)
    []

/-- A plugin instance `plugin_class(basedir, sudo=sudo)`: the registry entry
keeps the class-level `sudo` default, which an explicit `sudo=True` argument
overrides (`validate` passes `True` or `None`, never `False`). -/
structure PluginInst where
  pname : String
  basedir : String
  psudo : Bool
deriving Repr, DecidableEq

/-- A document node after `validate` decorated it: `define` commands get
`plugin = None`; other commands get `item.command`, `item.args` and
`item.plugin`; selector children are validated recursively. -/
inductive VItem where
  | vdefine : List String → VItem
  | vcmd : List String → String → List String → PluginInst → VItem
  | vsel : List (List String) → List VItem → VItem
deriving Repr

mutual
/-- The body of the `validate` loop for a single item. -/
def validate_item (plugins : List (String × Bool)) (basedir : String) :
    Node → Except String VItem
  | .command argv =>
    if argv.headD "" = "define" then .ok (.vdefine argv)
    else if argv.headD "" = "sudo" && argv.length == 1 then
      .error "sudo must be followed by a command"
    else
      match plugins.lookup (resolved_command argv) with
      | none => .error ("\"" ++ resolved_command argv ++ "\" not a valid plugin")
      | some default_sudo =>
        .ok (.vcmd argv (resolved_command argv) (resolved_args argv)
          ⟨resolved_command argv, basedir,
            if argv.headD "" = "sudo" then true else default_sudo⟩)
  | .selector clauses items =>
    (validate plugins basedir items).map (fun vs => .vsel clauses vs)
termination_by structural n => n

/-- Function `validate(document, filename, plugins)` from `script.py`, returning the
decorated document or the first `ConfigError` message. -/
def validate (plugins : List (String × Bool)) (basedir : String) :
    List Node → Except String (List VItem)
  | [] => .ok []
  | item :: rest =>
    match validate_item plugins basedir item with
    | .error e => .error e
    | .ok v => (validate plugins basedir rest).map (fun vs => v :: vs)
termination_by structural l => l
end

/-- Predicate `badCmd plugins argv`: holds exactly in the two `ConfigError` situations of
`validate`: a `sudo` with no following token, or an unresolvable action name. -/
def badCmd (plugins : List (String × Bool)) (argv : List String) : Prop :=
  argv.headD "" ≠ "define" ∧
    ((argv.headD "" = "sudo" ∧ argv.length = 1) ∨
      plugins.lookup (resolved_command argv) = none)

mutual
/-- A node contains (possibly nested) a command in a `ConfigError` situation. -/
def BadItem (plugins : List (String × Bool)) : Node → Prop
  | .command argv => badCmd plugins argv
  | .selector _ items => AnyBad plugins items
termination_by structural n => n

/-- Some command of the document is in a `ConfigError` situation. -/
def AnyBad (plugins : List (String × Bool)) : List Node → Prop
  | [] => False
  | item :: rest => BadItem plugins item ∨ AnyBad plugins rest
termination_by structural l => l
end

mutual
/-- Modelled from the spec (§4.6): what a validated node must look like —
non-`define` commands carry the resolved action name, argument list, and a
plugin instance bound to the document's base directory and elevation flag;
`define` commands carry no plugin; selector children are validated
recursively. Used to state the decoration half of the validation claim. -/
def DecoratedItem (plugins : List (String × Bool)) (basedir : String) :
    Node → VItem → Prop
  | .command argv, .vdefine argv' => argv' = argv ∧ argv.headD "" = "define"
  | .command argv, .vcmd argv' cmd args plug =>
    argv' = argv ∧ argv.headD "" ≠ "define" ∧
      ¬(argv.headD "" = "sudo" ∧ argv.length = 1) ∧
      cmd = resolved_command argv ∧ args = resolved_args argv ∧
      plug.pname = cmd ∧ plug.basedir = basedir ∧
      (∃ d, plugins.lookup cmd = some d ∧
        plug.psudo = (if argv.headD "" = "sudo" then true else d))
  | .selector clauses items, .vsel clauses' vitems =>
    clauses' = clauses ∧ DecoratedList plugins basedir items vitems
  | _, _ => False
termination_by structural n => n

/-- Pointwise decoration of a node list (same length and structure). -/
def DecoratedList (plugins : List (String × Bool)) (basedir : String) :
    List Node → List VItem → Prop
  | [], [] => True
  | item :: rest, v :: vs =>
    DecoratedItem plugins basedir item v ∧ DecoratedList plugins basedir rest vs
  | _, _ => False
termination_by structural l => l
end

/-- How a run of `apply_document` can stop before the end of the walk. -/
inductive Halt where
  | keyErr : Halt
  | exitCode : Nat → Halt
  | eofErr : Halt
deriving Repr, DecidableEq

/-- The `while True` continuation prompt of `apply_document`: skip invalid
answers, `"n"` aborts, `"y"` or an empty answer continues; `none` when input
is exhausted. Returns the decision and the unconsumed answers. -/
def prompt_continue : List String → Option (Bool × List String)
  | [] => none
  | a :: rest =>
    if a ≠ "y" ∧ a ≠ "n" ∧ a ≠ "" then prompt_continue rest
    else if a = "n" then some (false, rest)
    else some (true, rest)

/-- The loop of `apply_document` over the yields of `traverse_document`:
substitute variables into the arguments, honour `dry_run`, run the plugin (the
oracle `fails` says whether `plugin.run` signalled failure or raised
`ApplyError`), and on failure consult the continuation prompt. Returns the
invocations actually run (argv with substituted args), how the walk halted (if
it did), and the unconsumed answers. -/
def apply_yields (fails : List String → List String → Bool)
    (vars : List (String × String)) (dry_run : Bool) :
    List Yield → List String →
      List (List String × List String) × Option Halt × List String
  | [], answers => ([], none, answers)
  | y :: rest, answers =>
    match y.cmd with
    | none => apply_yields fails vars dry_run rest answers
    | some argv =>
      match substArgs vars (resolved_args argv) with
      | none => ([], some .keyErr, answers)
      | some args =>
        if dry_run then apply_yields fails vars dry_run rest answers
        else if fails argv args then
          match prompt_continue answers with
          | none => ([(argv, args)], some .eofErr, [])
          | some (false, rest') => ([(argv, args)], some (.exitCode 1), rest')
          | some (true, rest') =>
            ((argv, args) :: (apply_yields fails vars dry_run rest rest').1,
              (apply_yields fails vars dry_run rest rest').2)
        else
          ((argv, args) :: (apply_yields fails vars dry_run rest answers).1,
            (apply_yields fails vars dry_run rest answers).2)

/-- Function `apply_document(document, tags, state, dry_run)` from `script.py`. -/
def apply_document (fails : List String → List String → Bool)
    (doc : List Node) (tags : Tags) (vars : List (String × String))
    (dry_run : Bool) (answers : List String) :
    List (List String × List String) × Option Halt × List String :=
  apply_yields fails vars dry_run (traverse_document doc tags).1 answers

/-- A heap of mutable Python sets; a reference is an index. Used to model the
aliasing behaviour of the working tag set (`tags = tags.copy()`). -/
abbrev Store := List Tags

/-- Dereference a set. -/
def readRef (st : Store) (r : Nat) : Tags :=
  st.getD r []

/-- Mutate a set in place. -/
def writeRef (st : Store) (r : Nat) (v : Tags) : Store :=
  st.set r v

mutual
/-- Store-passing version of `recurse_step`: all mutation goes through the
single working-set reference `w`. -/
def recurseS_step : Node → Store → Nat → List Yield × Store
  | .command argv, st, w =>
    if argv.headD "" = "define" then
      ([], writeRef st w (updateTags (readRef st w) argv))
    else
      ([⟨none, some argv, readRef st w⟩], st)
  | .selector clauses items, st, w =>
    if test_match (dnfExpr clauses) (readRef st w) false then
      (⟨some clauses, none, readRef st w⟩ :: (recurseS items st w).1,
        (recurseS items st w).2)
    else
      ([⟨some clauses, none, readRef st w⟩], st)
termination_by structural n => n

/-- Store-passing version of `recurse`. -/
def recurseS : List Node → Store → Nat → List Yield × Store
  | [], st, _ => ([], st)
  | item :: rest, st, w =>
    ((recurseS_step item st w).1 ++ (recurseS rest (recurseS_step item st w).2 w).1,
      (recurseS rest (recurseS_step item st w).2 w).2)
termination_by structural l => l
end

/-- Store-passing version of `traverse_document`: `tags = tags.copy()`
allocates a fresh set initialized from the caller's seed set `r`, and the
whole walk works on that fresh reference. -/
def traverseS (doc : List Node) (st : Store) (r : Nat) : List Yield × Store :=
  recurseS doc (st ++ [readRef st r]) st.length

example : test_match (.and []) ["a"] false = true := rfl
example : test_match (.or []) ["a"] false = false := rfl
example : test_match (.atom "!x") ["x"] false = false := by decide
example : test_match (.atom "foo") ["bar"] true = true := by decide
example :
    (traverse_document [.command ["define", "foo"], .command ["x"]] []).1 =
      [⟨none, some ["x"], ["define", "foo"]⟩] := by decide
example :
    (traverse_document [.selector [["foo"]] [.command ["a"]]] ["foo"]).1 =
      [⟨some [["foo"]], none, ["foo"]⟩, ⟨none, some ["a"], ["foo"]⟩] := by decide

-- sanity checks mirroring `tests/test_applying.py`
example : firstpass [.selector [["foo"]] []] [] = ["foo"] := by decide
example : firstpass [.selector [["foo", "bar"]] []] [] = ["foo", "bar"] := by decide
example : firstpass [.selector [["foo"], ["bar"]] []] [] = ["foo", "bar"] := by decide
example : firstpass [.selector [["foo"]] []] ["foo"] = [] := by decide
example : firstpass [.selector [["sys:test", "foo"]] []] [] = [] := by decide
example : firstpass [.selector [["sys:test", "foo"]] []] ["sys:test"] = ["foo"] := by decide
example : firstpass [.selector [["!sys:test", "foo"]] []] [] = ["foo"] := by decide
example : firstpass [.selector [["!sys:test", "foo"]] []] ["foo"] = [] := by decide
example : firstpass [.selector [["foo"]] [.selector [["bar"]] []]] [] = ["foo"] := by decide
example :
    firstpass [.selector [["foo"]] [.selector [["bar"]] []]] ["foo"] = ["bar"] := by decide
example :
    firstpass [.command ["define", "foo"], .selector [["foo"]] [.selector [["bar"]] []]] [] =
      ["bar"] := by decide
example :
    firstpass [.selector [["foo"]] [.selector [["bar"]] []], .command ["define", "foo"]] [] =
      ["foo"] := by decide
-- the C5 scenario document `sys:test foo { bar {} }`
example :
    firstpass [.selector [["sys:test", "foo"]] [.selector [["bar"]] []]] [] = [] := by decide
example :
    firstpass [.selector [["sys:test", "foo"]] [.selector [["bar"]] []]] ["sys:test"] =
      ["foo"] := by decide

example : findall_vars "a @@x@@ b @@y_2@@" = ["@@x@@", "@@y_2@@"] := by decide
example : findall_vars "@@@x@@" = ["@@x@@"] := by decide
example : findall_vars "@@x@@@y@@" = ["@@x@@"] := by decide
example : findall_vars "@@ x@@" = [] := by decide
example : sub_vars [("@@x@@", "V")] "a @@x@@ b" = some "a V b" := by decide
example : sub_vars [("@@x@@", "V")] "a @@y@@ b" = none := by decide
example : sub_vars [] "no vars" = some "no vars" := by decide

example :
    validate [("log", false)] "/b" [.command ["log", "42"]] =
      .ok [.vcmd ["log", "42"] "log" ["42"] ⟨"log", "/b", false⟩] := rfl
example :
    validate [("log", false)] "/b" [.command ["sudo", "log", "42"]] =
      .ok [.vcmd ["sudo", "log", "42"] "log" ["42"] ⟨"log", "/b", true⟩] := rfl
example :
    validate [("log", false)] "/b" [.command ["sudo"]] =
      .error "sudo must be followed by a command" := rfl
example :
    (validate [("log", false)] "/b" [.selector [["t"]] [.command ["oops"]]]).isOk =
      false := by decide

example :
    apply_document (fun _ _ => false) [.selector [["foo"]] [.command ["log", "42"]]]
      ["foo"] [] false [] =
    ([(["log", "42"], ["42"])], none, []) := by decide
example :
    apply_document (fun _ _ => false) [.selector [["foo"]] [.command ["log", "42"]]]
      [] [] false [] = ([], none, []) := by decide
example :
    apply_document (fun a _ => a = ["log", "1"]) [.command ["log", "1"], .command ["log", "2"]]
      [] [] false ["n"] =
    ([(["log", "1"], ["1"])], some (.exitCode 1), []) := by decide
example :
    apply_document (fun a _ => a = ["log", "1"]) [.command ["log", "1"], .command ["log", "2"]]
      [] [] false ["y"] =
    ([(["log", "1"], ["1"]), (["log", "2"], ["2"])], none, []) := by decide
example :
    traverseS [.command ["define", "a"]] [["s"]] 0 =
      ([], [["s"], ["s", "define", "a"]]) := by decide

/-! ### Set-membership lemmas -/

theorem mem_addTag {tags : Tags} {a t : String} :
    t ∈ addTag tags a ↔ t ∈ tags ∨ t = a := by
  by_cases h : tags.contains a
  · have ha : a ∈ tags := by simpa using h
    simp only [addTag, h, if_true]
    exact ⟨Or.inl, fun h1 => h1.elim id (fun e => e ▸ ha)⟩
  · have ha : a ∉ tags := by simpa using h
    simp [addTag, ha]

theorem mem_foldl_iff {α : Type} (step : Tags → α → Tags) (Contrib : α → String → Prop)
    (h : ∀ acc y t, t ∈ step acc y ↔ t ∈ acc ∨ Contrib y t) :
    ∀ (l : List α) (acc : Tags) (t : String),
      t ∈ l.foldl step acc ↔ t ∈ acc ∨ ∃ y ∈ l, Contrib y t := by
  intro l
  induction l with
  | nil => simp
  | cons y l ih =>
    intro acc t
    rw [List.foldl_cons, ih, h]
    simp only [List.mem_cons]
    constructor
    · rintro ((h1 | h1) | ⟨z, hz, h1⟩)
      · exact Or.inl h1
      · exact Or.inr ⟨y, Or.inl rfl, h1⟩
      · exact Or.inr ⟨z, Or.inr hz, h1⟩
    · rintro (h1 | ⟨z, rfl | hz, h1⟩)
      · exact Or.inl (Or.inl h1)
      · exact Or.inl (Or.inr h1)
      · exact Or.inr ⟨z, hz, h1⟩

theorem mem_updateTags {tags new : List String} {t : String} :
    t ∈ updateTags tags new ↔ t ∈ tags ∨ t ∈ new := by
  have := mem_foldl_iff addTag (fun a t => t = a) (fun _ _ _ => mem_addTag) new tags t
  rw [updateTags, this]
  simp only [exists_eq_right']

/-! ### The evaluator as boolean algebra (claims C1, C9) -/

theorem test_match_all_iff (items : List TagExpr) (tags : Tags) (sys_only : Bool) :
    test_match_all items tags sys_only = true ↔
      ∀ e ∈ items, test_match e tags sys_only = true := by
  induction items with
  | nil => simp [test_match_all]
  | cons e rest ih => simp [test_match_all, Bool.and_eq_true, ih]

theorem test_match_any_iff (items : List TagExpr) (tags : Tags) (sys_only : Bool) :
    test_match_any items tags sys_only = true ↔
      ∃ e ∈ items, test_match e tags sys_only = true := by
  induction items with
  | nil => simp [test_match_any]
  | cons e rest ih => simp [test_match_any, Bool.or_eq_true, ih]

/-- C9: for every tag set `S` (and either `sys_only` mode), the evaluator
returns true on an empty conjunction and false on an empty disjunction:
`test_match (And []) S = true` and `test_match (Or []) S = false`. -/
theorem empty_and_or_eval (S : Tags) (sys_only : Bool) :
    test_match (.and []) S sys_only = true ∧ test_match (.or []) S sys_only = false :=
  ⟨rfl, rfl⟩

/-- C1: the evaluator's semantics. `And items` matches iff every item matches;
`Or items` matches iff some item matches; an atom (after `parse_tag` strips a
leading `!` to obtain the `required` flag) is vacuously true when `sys_only`
is set and the atom is not namespaced `sys:`, and otherwise evaluates to
membership of the stripped tag in the active set if required, else to its
negation. -/
theorem test_match_semantics (tags : Tags) (sys_only : Bool) :
    (∀ items, test_match (.and items) tags sys_only = true ↔
      ∀ e ∈ items, test_match e tags sys_only = true) ∧
    (∀ items, test_match (.or items) tags sys_only = true ↔
      ∃ e ∈ items, test_match e tags sys_only = true) ∧
    (∀ s, test_match (.atom s) tags sys_only =
      if sys_only = true ∧ strStartsWith (parse_tag s).2 "sys:" = false then true
      else if (parse_tag s).1 = true then decide ((parse_tag s).2 ∈ tags)
      else decide ((parse_tag s).2 ∉ tags)) := by
  refine ⟨fun items => ?_, fun items => ?_, fun s => ?_⟩
  · rw [show test_match (.and items) tags sys_only = test_match_all items tags sys_only from rfl]
    exact test_match_all_iff items tags sys_only
  · rw [show test_match (.or items) tags sys_only = test_match_any items tags sys_only from rfl]
    exact test_match_any_iff items tags sys_only
  · by_cases h1 : sys_only = true <;>
      by_cases h2 : strStartsWith (parse_tag s).2 "sys:" = true <;>
        by_cases h3 : (parse_tag s).1 = true <;>
          by_cases h4 : (parse_tag s).2 ∈ tags <;>
            simp [test_match, h1, h2, h3, h4]

/-! ### The traversal on `define` commands and selectors (claims C2, C3) -/

/-- C2, counterexample: on the document `define foo` followed by a command
`x`, with empty seed, the working set visible at the yield of `x` is
`{"define", "foo"}` — the literal token `define` itself was added — whereas
the claim ("exactly the tokens after `define` are added") predicts `{"foo"}`,
which does not contain `"define"`. -/
theorem define_adds_whole_argv_counterexample :
    (traverse_document [.command ["define", "foo"], .command ["x"]] []).1 =
      [⟨none, some ["x"], ["define", "foo"]⟩] ∧
    "define" ∈ (["define", "foo"] : Tags) ∧ "define" ∉ (["foo"] : Tags) := by
  decide

/-- C2, amended: when a Command whose first token is `define` is encountered,
all of its tokens (`command.argv`, so including the literal `define` itself,
not only the remaining tokens) are added to the working tag set; the command
is not yielded as an action; and the traversal continues with the following
siblings using the enlarged set. -/
theorem define_updates_tags_and_is_not_yielded
    (ts : List String) (rest : List Node) (tags : Tags) :
    recurse (.command ("define" :: ts) :: rest) tags =
      recurse rest (updateTags tags ("define" :: ts)) ∧
    (∀ t, t ∈ updateTags tags ("define" :: ts) ↔ t ∈ tags ∨ t = "define" ∨ t ∈ ts) := by
  constructor
  · simp [recurse, recurse_step]
  · intro t
    rw [mem_updateTags]
    simp [List.mem_cons, eq_comm]

/-- C3: a Selector is yielded (with the current working set) before any
descent decision, as the head of the produced yields; the traversal recurses
into its children iff its tag expression matches the current working set with
`sys_only = false`; and the recursion threads the same working set through,
so the following siblings are traversed with the tag set as left by the
children (defines inside the children remain visible afterwards). -/
theorem selector_yield_and_descent
    (clauses : List (List String)) (items rest : List Node) (tags : Tags) :
    recurse (.selector clauses items :: rest) tags =
      (if test_match (dnfExpr clauses) tags false then
        (⟨some clauses, none, tags⟩ ::
            ((recurse items tags).1 ++ (recurse rest (recurse items tags).2).1),
          (recurse rest (recurse items tags).2).2)
      else
        (⟨some clauses, none, tags⟩ :: (recurse rest tags).1, (recurse rest tags).2)) := by
  by_cases h : test_match (dnfExpr clauses) tags false <;>
    simp [recurse, recurse_step, h]

/-! ### Monotone growth of the working set (claim C4) -/

/-- Along one traversal, the sequence (initial set, tag snapshot of each
yield in order, final set) is a chain under set inclusion. -/
theorem recurse_pairwise (l : List Node) (tags : Tags) :
    List.Pairwise (· ⊆ ·)
      (tags :: ((recurse l tags).1.map Yield.tags ++ [(recurse l tags).2])) := by
  refine recurse.induct
    (fun n tg => List.Pairwise (· ⊆ ·)
      (tg :: ((recurse_step n tg).1.map Yield.tags ++ [(recurse_step n tg).2])))
    (fun l tg => List.Pairwise (· ⊆ ·)
      (tg :: ((recurse l tg).1.map Yield.tags ++ [(recurse l tg).2])))
    ?_ ?_ ?_ ?_ ?_ ?_ l tags
  · intro argv tg h
    simp only [recurse_step, h, if_pos, List.map_nil, List.nil_append]
    refine List.pairwise_cons.mpr ⟨?_, List.pairwise_singleton _ _⟩
    intro b hb
    simp only [List.mem_singleton] at hb
    subst hb
    intro t ht
    exact mem_updateTags.mpr (Or.inl ht)
  · intro argv tg h
    simp only [recurse_step, h, if_neg, if_false, List.map_cons, List.map_nil,
      List.singleton_append]
    exact List.pairwise_cons.mpr ⟨by
      intro b hb
      rcases List.mem_cons.mp hb with rfl | hb
      · exact List.Subset.refl _
      · rcases List.mem_singleton.mp hb with rfl
        exact List.Subset.refl _,
      List.pairwise_cons.mpr ⟨by
        intro b hb
        rcases List.mem_singleton.mp hb with rfl
        exact List.Subset.refl _, List.pairwise_singleton _ _⟩⟩
  · intro clauses items tg h ih
    simp only [recurse_step, h, if_pos, List.map_cons, List.cons_append]
    refine List.pairwise_cons.mpr ⟨?_, ih⟩
    intro b hb
    rcases List.mem_cons.mp hb with rfl | hb
    · exact List.Subset.refl _
    · exact (List.pairwise_cons.mp ih).1 b hb
  · intro clauses items tg h
    simp only [recurse_step, h, if_neg, if_false, List.map_cons, List.map_nil,
      List.singleton_append]
    exact List.pairwise_cons.mpr ⟨by
      intro b hb
      rcases List.mem_cons.mp hb with rfl | hb
      · exact List.Subset.refl _
      · rcases List.mem_singleton.mp hb with rfl
        exact List.Subset.refl _,
      List.pairwise_cons.mpr ⟨by
        intro b hb
        rcases List.mem_singleton.mp hb with rfl
        exact List.Subset.refl _, List.pairwise_singleton _ _⟩⟩
  · intro tg
    simp only [recurse, List.map_nil, List.nil_append]
    exact List.pairwise_cons.mpr ⟨by
      intro b hb
      rcases List.mem_singleton.mp hb with rfl
      exact List.Subset.refl _, List.pairwise_singleton _ _⟩
  · intro item rest tg ih1 ih2
    have hgoal :
        (tg :: ((recurse (item :: rest) tg).1.map Yield.tags ++
          [(recurse (item :: rest) tg).2])) =
        (tg :: (recurse_step item tg).1.map Yield.tags) ++
          ((recurse rest (recurse_step item tg).2).1.map Yield.tags ++
            [(recurse rest (recurse_step item tg).2).2]) := by
      simp [recurse, List.map_append]
    rw [hgoal]
    have h1 : List.Pairwise (α := Tags) (· ⊆ ·) (tg :: (recurse_step item tg).1.map Yield.tags) := by
      refine List.Pairwise.sublist ?_ ih1
      exact List.sublist_append_left _ [(recurse_step item tg).2]
    have h2 : List.Pairwise (α := Tags) (· ⊆ ·)
        ((recurse rest (recurse_step item tg).2).1.map Yield.tags ++
          [(recurse rest (recurse_step item tg).2).2]) :=
      (List.pairwise_cons.mp ih2).2
    have hfirst : ∀ a ∈ tg :: (recurse_step item tg).1.map Yield.tags,
        a ⊆ (recurse_step item tg).2 := by
      have := List.pairwise_append.mp
        (show List.Pairwise (α := Tags) (· ⊆ ·)
          ((tg :: (recurse_step item tg).1.map Yield.tags) ++ [(recurse_step item tg).2])
          from ih1)
      intro a ha
      exact this.2.2 a ha _ (List.mem_singleton.mpr rfl)
    have hsecond : ∀ b ∈ (recurse rest (recurse_step item tg).2).1.map Yield.tags ++
        [(recurse rest (recurse_step item tg).2).2],
        (recurse_step item tg).2 ⊆ b :=
      (List.pairwise_cons.mp ih2).1
    refine List.pairwise_append.mpr ⟨h1, h2, ?_⟩
    intro a ha b hb
    exact List.Subset.trans (hfirst a ha) (hsecond b hb)

/-- C4: within a single traversal the working tag set grows monotonically —
every tag present in the seed or in the snapshot at some yield point is still
present at every later yield point of the same traversal. -/
theorem working_set_monotone (doc : List Node) (seed : Tags) (i j : Nat)
    (hij : i ≤ j) (hj : j < (traverse_document doc seed).1.length) (t : String)
    (ht : t ∈ seed ∨
      t ∈ ((traverse_document doc seed).1.get ⟨i, Nat.lt_of_le_of_lt hij hj⟩).tags) :
    t ∈ ((traverse_document doc seed).1.get ⟨j, hj⟩).tags := by
  have P := recurse_pairwise doc seed
  rw [List.pairwise_iff_get] at P
  have hi : i < (traverse_document doc seed).1.length := Nat.lt_of_le_of_lt hij hj
  simp only [traverse_document] at hi hj ht ⊢
  have hlen : (seed :: ((recurse doc seed).1.map Yield.tags ++
      [(recurse doc seed).2])).length = (recurse doc seed).1.length + 2 := by
    simp
  have hget : ∀ (k : Nat) (hk : k < (recurse doc seed).1.length)
      (hk2 : k + 1 < (seed :: ((recurse doc seed).1.map Yield.tags ++
        [(recurse doc seed).2])).length),
      (seed :: ((recurse doc seed).1.map Yield.tags ++
        [(recurse doc seed).2])).get ⟨k + 1, hk2⟩ =
        ((recurse doc seed).1.get ⟨k, hk⟩).tags := by
    intro k hk hk2
    have hk3 : k < ((recurse doc seed).1.map Yield.tags).length := by
      simpa using hk
    simp [List.get_eq_getElem, List.getElem_append_left hk3]
  rcases ht with ht | ht
  · have hP := P ⟨0, by omega⟩ ⟨j + 1, by omega⟩ (Fin.mk_lt_mk.mpr (by omega))
    rw [hget j hj (by omega)] at hP
    exact hP ht
  · rcases Nat.lt_or_ge i j with hlt | hge
    · have hP := P ⟨i + 1, by omega⟩ ⟨j + 1, by omega⟩ (Fin.mk_lt_mk.mpr (by omega))
      rw [hget i hi (by omega), hget j hj (by omega)] at hP
      exact hP ht
    · have : i = j := Nat.le_antisymm hij hge
      subst this
      exact ht

/-- Witness for C4 at a concrete document: a tag added by a `define` is still
present at a later yield point. -/
theorem working_set_monotone_witness :
    "a" ∈ (((traverse_document [.command ["define", "a"], .command ["x"], .command ["y"]]
      ["s"]).1).get ⟨1, by decide⟩).tags :=
  working_set_monotone [.command ["define", "a"], .command ["x"], .command ["y"]]
    ["s"] 0 1 (by decide) (by decide) "a" (Or.inr (by decide))

/-! ### Tag discovery (claim C5) -/

theorem mem_collectClause {tags acc : Tags} {clause : List String} {t : String} :
    t ∈ collectClause tags acc clause ↔
      t ∈ acc ∨ (test_match (.and (clause.map .atom)) tags true = true ∧
        ∃ a ∈ clause, (parse_tag a).2 = t ∧ strStartsWith t "sys:" = false ∧ t ∉ tags) := by
  unfold collectClause
  by_cases h : test_match (.and (clause.map .atom)) tags true
  · rw [if_pos h, mem_updateTags]
    simp only [h, true_and, List.mem_filter, List.mem_map, Bool.and_eq_true,
      Bool.not_eq_true']
    constructor
    · rintro (h1 | ⟨⟨a, ha, rfl⟩, hs, hc⟩)
      · exact Or.inl h1
      · exact Or.inr ⟨a, ha, rfl, hs, by simpa using hc⟩
    · rintro (h1 | ⟨a, ha, rfl, hs, hc⟩)
      · exact Or.inl h1
      · exact Or.inr ⟨⟨a, ha, rfl⟩, hs, by simpa using hc⟩
  · rw [if_neg h]
    simp [h]

theorem mem_firstpass {doc : List Node} {init_tags : Tags} {t : String} :
    t ∈ firstpass doc init_tags ↔
      ∃ y ∈ (traverse_document doc init_tags).1, ∃ clauses, y.sel = some clauses ∧
        ∃ clause ∈ clauses, test_match (.and (clause.map .atom)) y.tags true = true ∧
          ∃ a ∈ clause, (parse_tag a).2 = t ∧ strStartsWith t "sys:" = false ∧
            t ∉ y.tags := by
  unfold firstpass
  rw [mem_foldl_iff _
    (fun y t => ∃ clauses, y.sel = some clauses ∧
      ∃ clause ∈ clauses, test_match (.and (clause.map .atom)) y.tags true = true ∧
        ∃ a ∈ clause, (parse_tag a).2 = t ∧ strStartsWith t "sys:" = false ∧ t ∉ y.tags)
    ?_]
  · simp
  · intro acc y s
    match hy : y.sel with
    | none => simp [hy]
    | some clauses =>
      simp only [hy, Option.some.injEq]
      rw [mem_foldl_iff (collectClause y.tags)
        (fun clause s => test_match (.and (clause.map .atom)) y.tags true = true ∧
          ∃ a ∈ clause, (parse_tag a).2 = s ∧ strStartsWith s "sys:" = false ∧
            s ∉ y.tags)
        (fun _ _ _ => mem_collectClause)]
      constructor
      · rintro (h1 | h1)
        · exact Or.inl h1
        · exact Or.inr ⟨clauses, rfl, h1⟩
      · rintro (h1 | ⟨c, hc, h1⟩)
        · exact Or.inl h1
        · cases hc
          exact Or.inr h1

/-- C5: tag discovery returns exactly the tags contributed across all visited
Selectors — for each yielded Selector, for each AND-clause of its OR
expression that passes a `sys_only` check against the tags active at that
yield, the clause's atoms with `!` stripped that are neither `sys:`-namespaced
nor already active.  On the scenario document `sys:test foo { bar {} }`,
discovery from seed `{}` returns `{}` and from seed `{sys:test}` returns
`{foo}`. -/
theorem firstpass_characterization :
    (∀ (doc : List Node) (init_tags : Tags) (t : String),
      t ∈ firstpass doc init_tags ↔
        ∃ y ∈ (traverse_document doc init_tags).1, ∃ clauses, y.sel = some clauses ∧
          ∃ clause ∈ clauses, test_match (.and (clause.map .atom)) y.tags true = true ∧
            ∃ a ∈ clause, (parse_tag a).2 = t ∧ strStartsWith t "sys:" = false ∧
              t ∉ y.tags) ∧
    firstpass [.selector [["sys:test", "foo"]] [.selector [["bar"]] []]] [] = [] ∧
    firstpass [.selector [["sys:test", "foo"]] [.selector [["bar"]] []]] ["sys:test"] =
      ["foo"] :=
  ⟨fun _ _ _ => mem_firstpass, by decide, by decide⟩

/-! ### The execution pass (claims C6, C10) -/

theorem matchVarAt_length {l r : List Char} {m : String}
    (h : matchVarAt l = some (m, r)) : r.length < l.length := by
  unfold matchVarAt at h
  split at h
  next rest =>
    split at h
    next rest2 heq =>
      split at h
      · exact absurd h (by simp)
      · rw [Option.some.injEq, Prod.mk.injEq] at h
        obtain ⟨-, rfl⟩ := h
        have hl := congrArg List.length heq
        rw [List.length_drop] at hl
        simp only [List.length_cons] at hl ⊢
        omega
    next => exact absurd h (by simp)
  next => exact absurd h (by simp)

theorem sub_aux_eq_none_iff (vars : List (String × String)) :
    ∀ (fuel : Nat) (l : List Char), l.length ≤ fuel →
      (sub_aux vars fuel l = none ↔
        ∃ m ∈ findall_aux fuel l, vars.lookup m = none) := by
  intro fuel
  induction fuel with
  | zero =>
    intro l hl
    cases l with
    | nil => simp [sub_aux, findall_aux]
    | cons c rest => simp at hl
  | succ fuel ih =>
    intro l hl
    cases l with
    | nil => simp [sub_aux, findall_aux]
    | cons c rest =>
      match hm : matchVarAt (c :: rest) with
      | some (m, rest2) =>
        have hr2 : rest2.length ≤ fuel := by
          have hlt := matchVarAt_length hm
          simp only [List.length_cons] at hlt hl
          omega
        match hv : vars.lookup m with
        | some v =>
          rw [show sub_aux vars (fuel + 1) (c :: rest) =
              (sub_aux vars fuel rest2).map (fun t => v ++ t) by
            simp [sub_aux, hm, hv]]
          rw [show findall_aux (fuel + 1) (c :: rest) = m :: findall_aux fuel rest2 by
            simp [findall_aux, hm]]
          rw [Option.map_eq_none', ih rest2 hr2]
          constructor
          · rintro ⟨w, hw, hl'⟩
            exact ⟨w, List.mem_cons_of_mem _ hw, hl'⟩
          · rintro ⟨w, hw, hl'⟩
            rcases List.mem_cons.mp hw with rfl | hw
            · rw [hv] at hl'
              exact absurd hl' (by simp)
            · exact ⟨w, hw, hl'⟩
        | none =>
          rw [show sub_aux vars (fuel + 1) (c :: rest) = none by simp [sub_aux, hm, hv]]
          rw [show findall_aux (fuel + 1) (c :: rest) = m :: findall_aux fuel rest2 by
            simp [findall_aux, hm]]
          simp only [true_iff]
          exact ⟨m, List.mem_cons_self m _, hv⟩
      | none =>
        have hr : rest.length ≤ fuel := by
          simp only [List.length_cons] at hl
          omega
        rw [show sub_aux vars (fuel + 1) (c :: rest) =
            (sub_aux vars fuel rest).map (fun t => String.mk [c] ++ t) by
          simp [sub_aux, hm]]
        rw [show findall_aux (fuel + 1) (c :: rest) = findall_aux fuel rest by
          simp [findall_aux, hm]]
        simp [Option.map_eq_none', ih rest hr]

theorem sub_vars_eq_none_iff (vars : List (String × String)) (s : String) :
    sub_vars vars s = none ↔ ∃ m ∈ findall_vars s, vars.lookup m = none :=
  sub_aux_eq_none_iff vars s.data.length s.data (le_refl _)

theorem substArgs_eq_none_iff (vars : List (String × String)) (args : List String) :
    substArgs vars args = none ↔ ∃ a ∈ args, sub_vars vars a = none := by
  induction args with
  | nil => simp [substArgs]
  | cons a rest ih =>
    match hs : sub_vars vars a with
    | none => simp [substArgs, hs]
    | some b => simp [substArgs, hs, Option.map_eq_none', ih]

/-- C10: during the execution pass, a reachable Command one of whose resolved
arguments contains a `@@name@@` placeholder with no entry in the variable
mapping makes `apply_document` fail with the uncaught `KeyError` from the
substitution: the plugin is never invoked (no invocation is recorded), the
failure is independent of the continuation answers (it happens outside the
`ApplyError` handler, so the prompt cannot recover it), and it happens for
any `dry_run` value, because substitution precedes the dry-run check. -/
theorem missing_variable_keyerror (vars : List (String × String)) (argv : List String)
    (h : ∃ arg ∈ resolved_args argv, ∃ m ∈ findall_vars arg, vars.lookup m = none)
    (fails : List String → List String → Bool) (dry_run : Bool)
    (sel : Option (List (List String))) (ts : Tags) (rest : List Yield)
    (answers : List String) :
    apply_yields fails vars dry_run (⟨sel, some argv, ts⟩ :: rest) answers =
      ([], some .keyErr, answers) := by
  have hnone : substArgs vars (resolved_args argv) = none := by
    rw [substArgs_eq_none_iff]
    obtain ⟨arg, ha, m, hm, hl⟩ := h
    exact ⟨arg, ha, (sub_vars_eq_none_iff vars arg).mpr ⟨m, hm, hl⟩⟩
  simp [apply_yields, hnone]

/-- Witness for C10 at a concrete input, in dry-run mode. -/
theorem missing_variable_keyerror_witness :
    apply_yields (fun _ _ => false) [] true [⟨none, some ["log", "@@x@@"], []⟩] [] =
      ([], some .keyErr, []) :=
  missing_variable_keyerror [] ["log", "@@x@@"] (by decide) (fun _ _ => false) true
    none [] [] []

/-- C6: when an action fails during the execution pass, the continuation
prompt decides what happens: answering `"n"` terminates the whole run
immediately with exit code 1 — the failed invocation is the last one and no
subsequent action runs — while answering `"y"` or giving an empty answer (the
default is yes) proceeds to the remaining actions with the failed action run
exactly once (no retry). -/
theorem failure_prompt_behaviour (fails : List String → List String → Bool)
    (vars : List (String × String)) (argv args : List String)
    (ts : Tags) (rest : List Yield) (more : List String)
    (hsub : substArgs vars (resolved_args argv) = some args)
    (hfail : fails argv args = true) :
    (apply_yields fails vars false (⟨none, some argv, ts⟩ :: rest) ("n" :: more) =
      ([(argv, args)], some (.exitCode 1), more)) ∧
    (∀ a, a = "y" ∨ a = "" →
      apply_yields fails vars false (⟨none, some argv, ts⟩ :: rest) (a :: more) =
        ((argv, args) :: (apply_yields fails vars false rest more).1,
          (apply_yields fails vars false rest more).2)) := by
  constructor
  · simp [apply_yields, hsub, hfail, prompt_continue]
  · rintro a (rfl | rfl) <;> simp [apply_yields, hsub, hfail, prompt_continue]

/-- Witness for C6: a single failing action, answered `"n"`, gives exit
code 1. -/
theorem failure_prompt_behaviour_witness :
    apply_yields (fun _ _ => true) [] false [⟨none, some ["log", "42"], []⟩] ["n"] =
      ([(["log", "42"], ["42"])], some (.exitCode 1), []) :=
  (failure_prompt_behaviour (fun _ _ => true) [] ["log", "42"] ["42"] [] [] []
    (by decide) rfl).1

/-! ### Validation (claim C7) -/

/-- C7: `validate` raises a `ConfigError` exactly when the document contains a
Command in one of the two error situations (a `sudo` with no following token,
or an action name absent from the plugin registry — `define` commands are
never errors); and on success every node is decorated as the spec describes:
resolved action name, resolved argument list, and a plugin instance bound to
the base directory and the elevation flag, with selector children validated
recursively. -/
theorem validate_characterization (plugins : List (String × Bool)) (basedir : String)
    (doc : List Node) :
    ((∃ e, validate plugins basedir doc = .error e) ↔ AnyBad plugins doc) ∧
    (∀ out, validate plugins basedir doc = .ok out →
      DecoratedList plugins basedir doc out) := by
  refine validate.induct plugins basedir
    (fun n => ((∃ e, validate_item plugins basedir n = .error e) ↔ BadItem plugins n) ∧
      (∀ v, validate_item plugins basedir n = .ok v → DecoratedItem plugins basedir n v))
    (fun l => ((∃ e, validate plugins basedir l = .error e) ↔ AnyBad plugins l) ∧
      (∀ out, validate plugins basedir l = .ok out → DecoratedList plugins basedir l out))
    ?_ ?_ ?_ ?_ ?_ ?_ ?_ ?_ doc
  · -- define command
    intro argv h
    have heq : validate_item plugins basedir (.command argv) = .ok (.vdefine argv) := by
      unfold validate_item
      rw [if_pos h]
    constructor
    · rw [heq]
      unfold BadItem badCmd
      constructor
      · rintro ⟨e, he⟩
        exact absurd he (by simp)
      · rintro ⟨hne, -⟩
        exact absurd h hne
    · intro v hv
      rw [heq, Except.ok.injEq] at hv
      subst hv
      unfold DecoratedItem
      exact ⟨rfl, h⟩
  · -- sudo with no following token
    intro argv h1 h2
    have heq : validate_item plugins basedir (.command argv) =
        .error "sudo must be followed by a command" := by
      unfold validate_item
      rw [if_neg h1, if_pos h2]
    have h2' : argv.headD "" = "sudo" ∧ argv.length = 1 := by
      simpa using h2
    constructor
    · rw [heq]
      unfold BadItem badCmd
      constructor
      · intro _
        exact ⟨h1, Or.inl h2'⟩
      · intro _
        exact ⟨"sudo must be followed by a command", rfl⟩
    · intro v hv
      rw [heq] at hv
      exact absurd hv (by simp)
  · -- unknown plugin
    intro argv h1 h2 h3
    have heq : validate_item plugins basedir (.command argv) =
        .error ("\"" ++ resolved_command argv ++ "\" not a valid plugin") := by
      unfold validate_item
      rw [if_neg h1, if_neg h2, h3]
    constructor
    · rw [heq]
      unfold BadItem badCmd
      constructor
      · intro _
        exact ⟨h1, Or.inr h3⟩
      · intro _
        exact ⟨_, rfl⟩
    · intro v hv
      rw [heq] at hv
      exact absurd hv (by simp)
  · -- known plugin: the command is decorated
    intro argv h1 h2 default_sudo h3
    have heq : validate_item plugins basedir (.command argv) =
        .ok (.vcmd argv (resolved_command argv) (resolved_args argv)
          ⟨resolved_command argv, basedir,
            if argv.headD "" = "sudo" then true else default_sudo⟩) := by
      unfold validate_item
      rw [if_neg h1, if_neg h2, h3]
    have h2' : ¬(argv.headD "" = "sudo" ∧ argv.length = 1) := by
      intro hand
      exact h2 (by rw [hand.1, hand.2]; rfl)
    constructor
    · rw [heq]
      unfold BadItem badCmd
      constructor
      · rintro ⟨e, he⟩
        exact absurd he (by simp)
      · rintro ⟨hd, hbad | hbad⟩
        · exact absurd hbad h2'
        · rw [h3] at hbad
          exact absurd hbad (by simp)
    · intro v hv
      rw [heq, Except.ok.injEq] at hv
      subst hv
      unfold DecoratedItem
      exact ⟨rfl, h1, h2', rfl, rfl, rfl, rfl, default_sudo, h3, rfl⟩
  · -- selector: children validated recursively
    intro clauses items ih
    have heq : validate_item plugins basedir (.selector clauses items) =
        (validate plugins basedir items).map (fun vs => .vsel clauses vs) := rfl
    rcases hval : validate plugins basedir items with e | vs
    · constructor
      · rw [heq, hval]
        constructor
        · intro _
          exact (show BadItem plugins (.selector clauses items) by
            unfold BadItem
            exact ih.1.mp ⟨e, hval⟩)
        · intro _
          exact ⟨e, rfl⟩
      · intro v hv
        rw [heq, hval] at hv
        exact absurd hv (by simp [Except.map])
    · constructor
      · rw [heq, hval]
        constructor
        · rintro ⟨e', he'⟩
          exact absurd he' (by simp [Except.map])
        · intro hbad
          have hex : ∃ e, validate plugins basedir items = .error e := by
            refine ih.1.mpr ?_
            unfold BadItem at hbad
            exact hbad
          rw [hval] at hex
          exact absurd hex (by simp)
      · intro v hv
        rw [heq, hval] at hv
        simp only [Except.map, Except.ok.injEq] at hv
        subst hv
        unfold DecoratedItem
        exact ⟨rfl, ih.2 vs hval⟩
  · -- empty document
    constructor
    · unfold validate AnyBad
      simp
    · intro out hout
      unfold validate at hout
      rw [Except.ok.injEq] at hout
      subst hout
      unfold DecoratedList
      trivial
  · -- first item fails validation
    intro item rest e herr ih1
    have heq : validate plugins basedir (item :: rest) = .error e := by
      unfold validate
      rw [herr]
    constructor
    · rw [heq]
      unfold AnyBad
      constructor
      · intro _
        exact Or.inl (ih1.1.mp ⟨e, herr⟩)
      · intro _
        exact ⟨e, rfl⟩
    · intro out hout
      rw [heq] at hout
      exact absurd hout (by simp)
  · -- first item validates
    intro item rest v hok ih1 ih2
    have heq : validate plugins basedir (item :: rest) =
        (validate plugins basedir rest).map (fun vs => v :: vs) := by
      have hstep : validate plugins basedir (item :: rest) =
          (match validate_item plugins basedir item with
            | .error e => .error e
            | .ok v => (validate plugins basedir rest).map (fun vs => v :: vs)) := rfl
      rw [hstep, hok]
    rcases hval : validate plugins basedir rest with e' | vs
    · constructor
      · rw [heq, hval]
        unfold AnyBad
        constructor
        · intro _
          exact Or.inr (ih2.1.mp ⟨e', hval⟩)
        · intro _
          exact ⟨e', rfl⟩
      · intro out hout
        rw [heq, hval] at hout
        exact absurd hout (by simp [Except.map])
    · constructor
      · rw [heq, hval]
        unfold AnyBad
        constructor
        · rintro ⟨e, he⟩
          exact absurd he (by simp [Except.map])
        · rintro (hbad | hbad)
          · obtain ⟨e, he⟩ := ih1.1.mpr hbad
            rw [hok] at he
            exact absurd he (by simp)
          · obtain ⟨e, he⟩ := ih2.1.mpr hbad
            rw [hval] at he
            exact absurd he (by simp)
      · intro out hout
        rw [heq, hval] at hout
        simp only [Except.map, Except.ok.injEq] at hout
        subst hout
        unfold DecoratedList
        exact ⟨ih1.2 v hok, ih2.2 vs hval⟩

/-- Witness for C7: a concrete `sudo`-prefixed command validates to the
decorated form with the resolved name, arguments and elevated plugin. -/
theorem validate_characterization_witness :
    DecoratedList [("log", false)] "/b" [.command ["sudo", "log", "x"]]
      [.vcmd ["sudo", "log", "x"] "log" ["x"] ⟨"log", "/b", true⟩] :=
  (validate_characterization [("log", false)] "/b" [.command ["sudo", "log", "x"]]).2
    [.vcmd ["sudo", "log", "x"] "log" ["x"] ⟨"log", "/b", true⟩] (by rfl)


/-! ### Aliasing of the seed set (claim C8) -/

theorem readRef_writeRef (st : Store) (w : Nat) (v : Tags) (hw : w < st.length) :
    readRef (writeRef st w v) w = v := by
  rw [readRef, writeRef, List.getD_eq_getElem?_getD, List.getElem?_set_eq_of_lt v hw]
  rfl

theorem writeRef_writeRef (st : Store) (w : Nat) (a b : Tags) :
    writeRef (writeRef st w a) w b = writeRef st w b := by
  simp [writeRef, List.set_set]

theorem writeRef_readRef (st : Store) (w : Nat) (hw : w < st.length) :
    writeRef st w (readRef st w) = st := by
  induction st generalizing w with
  | nil => simp at hw
  | cons a t ih =>
    cases w with
    | zero => rfl
    | succ w =>
      have hw' : w < t.length := by simpa using hw
      show a :: writeRef t w (readRef t w) = a :: t
      rw [ih w hw']

theorem length_writeRef (st : Store) (w : Nat) (v : Tags) :
    (writeRef st w v).length = st.length := by
  simp [writeRef]

/-- The store-passing traversal only mutates the working reference `w`: it is
the pure traversal run on the contents of `w`, written back to `w`. -/
theorem recurseS_eq : ∀ (l : List Node) (st : Store) (w : Nat), w < st.length →
    recurseS l st w =
      ((recurse l (readRef st w)).1, writeRef st w (recurse l (readRef st w)).2) := by
  refine recurseS.induct
    (fun n st w => w < st.length →
      recurseS_step n st w =
        ((recurse_step n (readRef st w)).1,
          writeRef st w (recurse_step n (readRef st w)).2))
    (fun l st w => w < st.length →
      recurseS l st w =
        ((recurse l (readRef st w)).1, writeRef st w (recurse l (readRef st w)).2))
    ?_ ?_ ?_ ?_ ?_ ?_
  · intro argv st w h hw
    unfold recurseS_step recurse_step
    rw [if_pos h, if_pos h]
  · intro argv st w h hw
    unfold recurseS_step recurse_step
    rw [if_neg h, if_neg h, writeRef_readRef st w hw]
  · intro clauses items st w h ih hw
    unfold recurseS_step recurse_step
    rw [if_pos h, if_pos h, ih hw]
  · intro clauses items st w h hw
    unfold recurseS_step recurse_step
    rw [if_neg h, if_neg h, writeRef_readRef st w hw]
  · intro st w hw
    unfold recurseS recurse
    rw [writeRef_readRef st w hw]
  · intro item rest st w ih1 ih2 hw
    have e1 := ih1 hw
    have hlen2 : w < (recurseS_step item st w).2.length := by
      rw [e1, length_writeRef]
      exact hw
    have e2 := ih2 hlen2
    show ((recurseS_step item st w).1 ++
        (recurseS rest (recurseS_step item st w).2 w).1,
      (recurseS rest (recurseS_step item st w).2 w).2) = _
    rw [e2, e1, readRef_writeRef st w _ hw, writeRef_writeRef]
    rfl

/-- C8: every top-level traversal works on an independent copy of the
caller-supplied seed set (the `tags.copy()` in `traverse_document`): after a
pass completes, the seed set the caller passed in is unchanged in the store; a
second pass started from the same seed reference yields exactly the same
sequence (no defines leak between passes); and the yields are those of the
pure traversal of the seed's contents. -/
theorem seed_set_isolation (doc : List Node) (st : Store) (r : Nat)
    (hr : r < st.length) :
    (traverseS doc st r).2.get? r = st.get? r ∧
    (traverseS doc (traverseS doc st r).2 r).1 = (traverseS doc st r).1 ∧
    (traverseS doc st r).1 = (traverse_document doc (readRef st r)).1 := by
  have hne : st.length ≠ r := Nat.ne_of_gt hr
  have hseed : readRef (st ++ [readRef st r]) st.length = readRef st r := by
    rw [readRef, List.getD_eq_getElem?_getD, List.getElem?_concat_length]
    rfl
  have hlen : st.length < (st ++ [readRef st r]).length := by simp
  have h1 : traverseS doc st r =
      ((recurse doc (readRef st r)).1,
        writeRef (st ++ [readRef st r]) st.length (recurse doc (readRef st r)).2) := by
    rw [traverseS, recurseS_eq doc _ st.length hlen, hseed]
  have hget : (traverseS doc st r).2.get? r = st.get? r := by
    rw [h1, List.get?_eq_getElem?, List.get?_eq_getElem?, writeRef,
      List.getElem?_set_ne hne, List.getElem?_append_left hr]
  refine ⟨hget, ?_, by rw [h1]; rfl⟩
  have hread' : readRef (traverseS doc st r).2 r = readRef st r := by
    rw [readRef, readRef, List.getD_eq_getElem?_getD, List.getD_eq_getElem?_getD]
    have h2 := hget
    rw [List.get?_eq_getElem?, List.get?_eq_getElem?] at h2
    rw [h2]
  have hlen2 : (traverseS doc st r).2.length <
      ((traverseS doc st r).2 ++ [readRef (traverseS doc st r).2 r]).length := by
    simp
  have hseed2 : readRef ((traverseS doc st r).2 ++ [readRef (traverseS doc st r).2 r])
      (traverseS doc st r).2.length = readRef (traverseS doc st r).2 r := by
    rw [readRef, List.getD_eq_getElem?_getD, List.getElem?_concat_length]
    rfl
  rw [show traverseS doc (traverseS doc st r).2 r =
      recurseS doc ((traverseS doc st r).2 ++ [readRef (traverseS doc st r).2 r])
        (traverseS doc st r).2.length from rfl,
    recurseS_eq doc _ _ hlen2, hseed2, hread', h1]

/-- Witness for C8 at a concrete store: a traversal whose `define` mutates the
working set leaves the seed cell untouched, and a rerun gives the same
yields. -/
theorem seed_set_isolation_witness :
    (traverseS [.command ["define", "a"]] [["s"]] 0).2.get? 0 = [["s"]].get? 0 ∧
    (traverseS [.command ["define", "a"]]
        (traverseS [.command ["define", "a"]] [["s"]] 0).2 0).1 =
      (traverseS [.command ["define", "a"]] [["s"]] 0).1 ∧
    (traverseS [.command ["define", "a"]] [["s"]] 0).1 =
      (traverse_document [.command ["define", "a"]] (readRef [["s"]] 0)).1 :=
  seed_set_isolation [.command ["define", "a"]] [["s"]] 0 (by decide)


end Wsconfig
